import Mathlib

/-!
# Verification of the cheesecake-recipes chat-archive converters

A shallow embedding of the transcript parser and identity/schema
normalization logic of `src/whatsapp/whatsapp.py` (and the search-index
step of `src/matrix/matrix-convertor.py`), with proofs checking the
natural-language specification against it.

Strings are modelled as `List Char`.  Transcript lines are modelled as
the result of `readlines` with the trailing newline removed (every use
of a line in the source either strips it or matches a regex whose `.`
stops at a newline, so the two presentations agree observably; where a
raw line is concatenated into a message body, the body is stripped
before being stored).  Python regexes are embedded as bespoke matchers
that reproduce the `re` module's leftmost, greedy/lazy backtracking
semantics for the exact patterns appearing in the source; ASCII inputs
are assumed for the character classes (`\d`, `\w`, whitespace).
-/

/-! ## Python character classes and string helpers -/

/-- Python regex `\w` over ASCII: letters, digits and the underscore. -/
def isWordChar (c : Char) : Bool :=
  (c ≥ 'a' && c ≤ 'z') || (c ≥ 'A' && c ≤ 'Z') || (c ≥ '0' && c ≤ '9') || c = '_'

/-- The whitespace stripped by Python's `str.strip()` (ASCII part). -/
def isPySpace (c : Char) : Bool :=
  c = ' ' || c = '\t' || c = '\n' || c = '\r' || c = '\x0b' || c = '\x0c'

/-- Python `str.strip()`. -/
def pyStrip (s : List Char) : List Char :=
  ((s.dropWhile isPySpace).reverse.dropWhile isPySpace).reverse

/-- Python `str.lower()` over ASCII. -/
def pyLower (s : List Char) : List Char := s.map Char.toLower

/-- The backtick character, `\x60`. -/
def tickChar : Char := '\x60'

/-- The triple-backtick delimiter of the monospace grammar. -/
def tick3 : List Char := [tickChar, tickChar, tickChar]

/-- `ntpath.basename`: the part of a path after the last `/` or `\`
(no drive letter arises for the paths built by the source). -/
def ntBasename (p : List Char) : List Char :=
  (p.reverse.takeWhile (fun c => c ≠ '/' && c ≠ '\\')).reverse

/-- `html.escape(text, quote=False)`: `&`, `<`, `>` to entities.  The
source applies three sequential `str.replace` calls; since no
replacement string contains a character replaced by a later call, this
equals the single left-to-right pass modelled here. -/
def htmlEscape (s : List Char) : List Char :=
  s.flatMap fun c =>
    if c = '&' then "&amp;".data
    else if c = '<' then "&lt;".data
    else if c = '>' then "&gt;".data
    else [c]

/-! ## The markup formatter: `parse_markdown(text, test)`

Each `re.sub` pass of the source is embedded as a left-to-right scan
over the unmodified input (Python's `re.sub` matches against the
original string and never re-enters its own replacements), with a fuel
argument `s.length + 1` making the recursion structural; the fuel can
never run out on those calls because every step consumes at least one
input character. -/

/-- Matcher for a lazy group followed by a literal closing delimiter:
`(.+?)close`.  Returns the shortest non-empty group (newline-free when
`noNL` is set, i.e. without `re.DOTALL`) and the rest of the input
after the closing delimiter. -/
def lazySpan (noNL : Bool) (close : List Char) : List Char → Option (List Char × List Char)
  | [] => none
  | a :: t =>
    if noNL && a = '\n' then none
    else if close.isPrefixOf t then some ([a], t.drop close.length)
    else (lazySpan noNL close t).map fun p => (a :: p.1, p.2)

/-- The protective first alternative shared by the italic, bold and
strikethrough regexes: triple-backtick span without `re.DOTALL`,
matched at the current position.  Returns the span interior and the
rest after the closing delimiter. -/
def tickAlt (s : List Char) : Option (List Char × List Char) :=
  if tick3.isPrefixOf s then lazySpan true tick3 (s.drop 3) else none

/-- `\b` immediately before a word character: holds at the start of
the string or after a non-word character. -/
def boundaryBeforeWord (prev : Option Char) : Bool :=
  match prev with
  | none => true
  | some p => !isWordChar p

/-- Lookahead `(?=\W|$)`. -/
def lookNonWord (r : List Char) : Bool :=
  match r with
  | [] => true
  | c :: _ => !isWordChar c

/-- The second alternative of the bold/strikethrough regexes,
`(\W|^)\*([^*]+)\*(?=\W|$)` (with `\*` generalized to delimiter `d`),
tried at the current position: `a` is the character at the position,
`t` the rest, `atStart` whether the position is the string start (for
the `^` branch; the `\W` branch, consuming `a`, is tried first, as in
Python's alternation order).  On success returns the replacement chunk
`group(3) ++ openTag ++ group(4) ++ closeTag` and the rest of the
input after the closing delimiter (the lookahead consumes nothing). -/
def spanTryW (d : Char) (ot ct : List Char) (a : Char) (t : List Char) :
    Option (List Char × List Char) :=
  if !isWordChar a then
    match t with
    | d' :: t2 =>
      if d' = d then
        let g := t2.takeWhile (· ≠ d)
        match t2.dropWhile (· ≠ d) with
        | _ :: r => if g ≠ [] ∧ lookNonWord r then some (a :: (ot ++ g ++ ct), r) else none
        | [] => none
      else none
    | [] => none
  else none

/-- The `^` branch of `(\W|^)`: zero-width, so the delimiter is the
character at the position itself, and only at the string start. -/
def spanTryS (d : Char) (ot ct : List Char) (atStart : Bool) (a : Char) (t : List Char) :
    Option (List Char × List Char) :=
  if atStart && a = d then
    let g := t.takeWhile (· ≠ d)
    match t.dropWhile (· ≠ d) with
    | _ :: r => if g ≠ [] ∧ lookNonWord r then some (ot ++ g ++ ct, r) else none
    | [] => none
  else none

def spanTry (d : Char) (ot ct : List Char) (atStart : Bool) (a : Char) (t : List Char) :
    Option (List Char × List Char) :=
  match spanTryW d ot ct a t with
  | some res => some res
  | none => spanTryS d ot ct atStart a t

/-- The italic pass,
`re.sub(r"```(.+?)```|\b_(.+?)_", lambda m: "<em>…</em>" if m.group(2) else m.group(0), text)`.
`prev` is the character of the original string just before the current
position (`none` at the start); after a match the scan resumes after
the matched region, so `prev` becomes the region's last character. -/
def italicScan : Nat → Option Char → List Char → List Char
  | _, _, [] => []
  | 0, _, s => s
  | f + 1, prev, a :: t =>
    match tickAlt (a :: t) with
    | some (d, r) => tick3 ++ d ++ tick3 ++ italicScan f (some tickChar) r
    | none =>
      if a = '_' && boundaryBeforeWord prev then
        match lazySpan true ['_'] t with
        | some (e, r) => "<em>".data ++ e ++ "</em>".data ++ italicScan f (some '_') r
        | none => a :: italicScan f (some a) t
      else a :: italicScan f (some a) t

/-- The bold/strikethrough pass,
`re.sub(r"(```(.+?)```|(\W|^)\*([^*]+)\*(?=\W|$))", lambda m: g3+"<strong>"+g4+"</strong>" if m.group(4) else m.group(0), text)`
with delimiter `d` (`*` or `~`) and the tag pair `ot`/`ct`. -/
def spanScan (d : Char) (ot ct : List Char) : Nat → Option Char → List Char → List Char
  | _, _, [] => []
  | 0, _, s => s
  | f + 1, prev, a :: t =>
    match tickAlt (a :: t) with
    | some (dd, r) => tick3 ++ dd ++ tick3 ++ spanScan d ot ct f (some tickChar) r
    | none =>
      match spanTry d ot ct prev.isNone a t with
      | some (chunk, r) => chunk ++ spanScan d ot ct f (some d) r
      | none => a :: spanScan d ot ct f (some a) t

/-- The monospace pass, `re.sub(r"```(.+?)```", r"<pre>\1</pre>", text, flags=re.DOTALL)`. -/
def monoScan : Nat → List Char → List Char
  | _, [] => []
  | 0, s => s
  | f + 1, a :: t =>
    match (if tick3.isPrefixOf (a :: t) then lazySpan false tick3 ((a :: t).drop 3) else none) with
    | some (d, r) => "<pre>".data ++ d ++ "</pre>".data ++ monoScan f r
    | none => a :: monoScan f t

def italicPass (s : List Char) : List Char := italicScan (s.length + 1) none s

def boldPass (s : List Char) : List Char :=
  spanScan '*' "<strong>".data "</strong>".data (s.length + 1) none s

def strikePass (s : List Char) : List Char :=
  spanScan '~' "<del>".data "</del>".data (s.length + 1) none s

def monoPass (s : List Char) : List Char := monoScan (s.length + 1) s

/-- Newline substitution `text.replace("\n", "<br>")`. -/
def newlineToBr (s : List Char) : List Char :=
  s.flatMap fun c => if c = '\n' then "<br>".data else [c]

/-- `parse_markdown(text, test)`: HTML-escape (skipped in test mode),
then the italic, bold, strikethrough and monospace passes in order,
then newline substitution (skipped in test mode). -/
def parseMarkdown (text : List Char) (test : Bool) : List Char :=
  let t0 := if test then text else htmlEscape text
  let t1 := italicPass t0
  let t2 := boldPass t1
  let t3 := strikePass t2
  let t4 := monoPass t3
  if test then t4 else newlineToBr t4

/-- Markup detection as the source performs it inline
(`content.strip() != parse_markdown(content.strip(), True)`), and as
the spec's contract defines `has_markup`. -/
def hasMarkup (s : List Char) : Bool := decide (parseMarkdown s true ≠ s)

example : parseMarkdown "_hello_".data true = "<em>hello</em>".data := by decide
example : parseMarkdown "say *hi* there".data true = "say <strong>hi</strong> there".data := by
  decide
example : parseMarkdown "*hi*there".data true = "*hi*there".data := by decide
example : parseMarkdown "``` _a_ ```".data true = "<pre> _a_ </pre>".data := by decide

/-! ## The transcript line classifier

`pattern   = re.compile(r"(\d\d)/(\d\d)/(\d\d), (\d\d):(\d\d) - ([^:]+): (.+)")`
`skip_pattern = re.compile(r"(\d\d)/(\d\d)/(\d\d), (\d\d):(\d\d) - .+")`
both used through `.match` (anchored at the start, free at the end).
`[^:]+` is greedy but cannot cross a colon, so the sender is the run
up to the first colon; `.` does not match a newline. -/

/-- Two `\d` digits, combined to the value `int` would parse. -/
def digit2 : List Char → Option (Nat × List Char)
  | a :: b :: t =>
    if a.isDigit && b.isDigit then some ((a.toNat - 48) * 10 + (b.toNat - 48), t) else none
  | _ => none

/-- A literal piece of the regex. -/
def lit (w : List Char) (s : List Char) : Option (List Char) :=
  if w.isPrefixOf s then some (s.drop w.length) else none

/-- The fields captured by a `MessageHeader` line: groups 1-5 are the
day, month, two-digit year, hour and minute; group 6 the sender;
group 7 the body. -/
structure WAHeader where
  day : Nat
  month : Nat
  year2 : Nat
  hour : Nat
  minute : Nat
  sender : List Char
  body : List Char
  deriving DecidableEq, Repr

/-- `pattern.match(line)`, with the capture groups. -/
def matchPattern (l : List Char) : Option WAHeader := do
  let (dd, s1) ← digit2 l
  let s2 ← lit ['/'] s1
  let (mo, s3) ← digit2 s2
  let s4 ← lit ['/'] s3
  let (yy, s5) ← digit2 s4
  let s6 ← lit ", ".data s5
  let (hh, s7) ← digit2 s6
  let s8 ← lit [':'] s7
  let (mi, s9) ← digit2 s8
  let s10 ← lit " - ".data s9
  let sender := s10.takeWhile (· ≠ ':')
  if sender = [] then none else
  let s11 ← lit ": ".data (s10.drop sender.length)
  let body := s11.takeWhile (· ≠ '\n')
  if body = [] then none else
  some ⟨dd, mo, yy, hh, mi, sender, body⟩

/-- `skip_pattern.match(line)`: the same timestamped prefix followed by
any non-empty text (system notices, but also every `pattern` line). -/
def matchSkipPattern (l : List Char) : Bool :=
  (do
    let (_, s1) ← digit2 l
    let s2 ← lit ['/'] s1
    let (_, s3) ← digit2 s2
    let s4 ← lit ['/'] s3
    let (_, s5) ← digit2 s4
    let s6 ← lit ", ".data s5
    let (_, s7) ← digit2 s6
    let s8 ← lit [':'] s7
    let (_, s9) ← digit2 s8
    let s10 ← lit " - ".data s9
    if s10.takeWhile (· ≠ '\n') = [] then none else some ()).isSome

/-! ## The inline attachment marker

`re.match(r"(.*)(IMG-.+.jpg) \(file attached\)", content)`: group 1 is
greedy (`.*`), so the match uses the last viable `IMG-` occurrence;
inside, `.+` is greedy, so the last viable `jpg (file attached)`
occurrence; the unescaped `.` before `jpg` is any character.  Text
after the literal ` (file attached)` is left unmatched and discarded. -/

/-- The literal `jpg (file attached)` that must follow `IMG-.+.` -/
def jpgLit : List Char := "jpg (file attached)".data

/-- Matches `.+.jpg \(file attached\)` at the start of `s`, greedily:
the longest `B` with `s = B ++ [c] ++ jpgLit ++ rest`, `B` non-empty.
Returns `(B ++ [c] ++ "jpg", rest)`, the tail of capture group 2 and
the unmatched remainder.  Preferring the recursive (further-right)
solution makes `B` longest, as backtracking from a greedy `.+` does. -/
def imgTail : List Char → Option (List Char × List Char)
  | [] => none
  | a :: t =>
    match imgTail t with
    | some (g, r) => some (a :: g, r)
    | none =>
      match t with
      | c :: t2 => if jpgLit.isPrefixOf t2 then
          some ([a, c] ++ "jpg".data, t2.drop jpgLit.length) else none
      | [] => none

/-- The whole image regex at the start of `content`: returns
`(group 1, group 2)`.  Greedy `(.*)` prefers the longest prefix, hence
the recursive (further-right) solution first. -/
def imgScan : List Char → Option (List Char × List Char)
  | [] => none
  | a :: t =>
    match imgScan t with
    | some (g1, g2) => some (a :: g1, g2)
    | none =>
      if "IMG-".data.isPrefixOf (a :: t) then
        match imgTail ((a :: t).drop 4) with
        | some (g, _) => some ([], "IMG-".data ++ g)
        | none => none
      else none

/-! ## The message assembler: `backup_messages(filepath, chat_id, group_users)`

The loop over `enumerate(lines)` with the one-line lookahead and the
`skip` flag is embedded as structural recursion over the line list.
File I/O is abstracted by `fs`, the set of source file names for which
`shutil.copyfile` succeeds; a missing source raises, which (the source
has no handler) propagates out of the whole function, modelled by the
`Except` result.  `shortuuid.uuid()` message ids are modelled by the
emission index.  `datetime(...)` raises `ValueError` on an impossible
date or time, and `group_users[name]` raises `KeyError` when the
sender is absent; both are modelled as errors, in the source's
evaluation order (copy, then user lookup, then timestamp). -/

/-- One entry of the `group_users` dictionary. -/
structure GroupUser where
  user_id : List Char
  avatar : List Char
  color : Option (List Char)
  deriving DecidableEq, Repr

/-- A record appended to `messages` (the dict of lines 242-254). -/
structure WAMessage where
  id : Nat
  user_id : List Char
  name : List Char
  avatar : List Char
  color : Option (List Char)
  /-- `(year, month, day, hour, minute)` as `datetime` receives them. -/
  created : Nat × Nat × Nat × Nat × Nat
  message_type : List Char
  content : Option (List Char)
  format : Option (List Char)
  formatted_content : Option (List Char)
  attachments : Option (List (List Char))
  deriving DecidableEq, Repr

/-- The uncaught exceptions `backup_messages` can raise. -/
inductive WAErr where
  /-- `shutil.copyfile` on a missing attachment source. -/
  | fileNotFound : List Char → WAErr
  /-- `group_users[name]` on an unknown sender. -/
  | keyError : List Char → WAErr
  /-- `datetime(...)` on an impossible date or time. -/
  | valueError : WAErr
  deriving DecidableEq, Repr

def deletedMarker1 : List Char := "This message was deleted".data
def deletedMarker2 : List Char := "You deleted this message".data

def isDeletedBody (b : List Char) : Bool := b = deletedMarker1 || b = deletedMarker2

/-- The body a header line contributes as initial content: empty for
the two deletion marker phrases, the body itself otherwise. -/
def headerContent (b : List Char) : List Char := if isDeletedBody b then [] else b

/-- `content[-16:] == " (file attached)"`. -/
def endsWithFA (c : List Char) : Bool := " (file attached)".data.isSuffixOf c

/-- Result of the attachment detection on a header body. -/
structure AttachResult where
  content : List Char
  attachment : Option (List Char)
  skipNext : Bool
  deriving DecidableEq, Repr

/-- Lines 213-227: image-pattern match (group 1 kept as content, the
following line consumed as caption when it is neither a header nor a
notice), else the generic ` (file attached)` suffix (content emptied,
the following line consumed when it equals the file name). -/
def attachStep (content : List Char) (next : Option (List Char)) : AttachResult :=
  match imgScan content with
  | some (g1, g2) =>
    match next with
    | some nxt =>
      if !(matchPattern nxt).isSome && !matchSkipPattern nxt then ⟨g1 ++ nxt, some g2, true⟩
      else ⟨g1, some g2, false⟩
    | none => ⟨g1, some g2, false⟩
  | none =>
    if endsWithFA content then
      let fn := content.take (content.length - 16)
      let sk : Bool := match next with
        | some nxt => pyStrip nxt == pyStrip fn
        | none => false
      ⟨[], some fn, sk⟩
    else ⟨content, none, false⟩

def mdTag : List Char := "whatsapp_markdown".data

/-- Lines 257-269, shared body of the two continuation branches:
store `new_content` and, when it differs from its own detection-mode
rendering, set the format tag and the rendered form (stale values are
kept otherwise — the source never clears them). -/
def applyCont (m : WAMessage) (newc : List Char) : WAMessage :=
  if newc ≠ parseMarkdown newc true then
    { m with content := some newc, format := some mdTag,
             formatted_content := some (parseMarkdown newc false) }
  else { m with content := some newc }

/-- In-place update of `messages[-1]`. -/
def updateLast (f : WAMessage → WAMessage) : List WAMessage → List WAMessage
  | [] => []
  | [m] => [f m]
  | m :: rest => m :: updateLast f rest

/-- Python truthiness of the stored `content` (`None` and `""` are falsy). -/
def contentTruthy : Option (List Char) → Bool
  | none => false
  | some s => !s.isEmpty

/-- Dictionary lookup `group_users[name]`. -/
def lookupAssoc (gu : List (List Char × GroupUser)) (k : List Char) : Option GroupUser :=
  (gu.find? (fun p => p.1 == k)).map (·.2)

def isLeapYear (y : Nat) : Bool := (y % 4 = 0 && y % 100 ≠ 0) || y % 400 = 0

def daysInMonth (y m : Nat) : Nat :=
  if m = 2 then (if isLeapYear y then 29 else 28)
  else if m = 4 ∨ m = 6 ∨ m = 9 ∨ m = 11 then 30 else 31

/-- The arguments `datetime(year, month, day, hour, minute)` accepts. -/
def validDateTime (y mo d h mi : Nat) : Bool :=
  1 ≤ mo && mo ≤ 12 && 1 ≤ d && d ≤ daysInMonth y mo && h ≤ 23 && mi ≤ 59

/-- Lines 228-233: copy the attachment if one was detected.
`shutil.copyfile` raises when the source file is missing (`fs` is the
set of names it succeeds for); on success the reference stored is
`chat_id + "/" + ntpath.basename(attachment)`. -/
def copyAttachment (chatId : List Char) (fs : List (List Char)) :
    Option (List Char) → Except WAErr (Option (List Char))
  | some fn =>
    if fs.contains fn then .ok (some (chatId ++ '/' :: ntBasename fn))
    else .error (.fileNotFound fn)
  | none => .ok none

/-- The `for i, line in enumerate(lines)` loop of lines 191-269.
`skip` is the flag consuming a line already handled by lookahead; `n`
numbers emitted messages (modelling `shortuuid.uuid()`). -/
def backupLoop (chatId : List Char) (gu : List (List Char × GroupUser))
    (fs : List (List Char)) :
    List (List Char) → Bool → List WAMessage → Nat → Except WAErr (List WAMessage)
  | [], _, msgs, _ => .ok msgs
  | _ :: rest, true, msgs, n => backupLoop chatId gu fs rest false msgs n
  | l :: rest, false, msgs, n =>
    match matchPattern l with
    | some h =>
      let mtype : List Char :=
        if isDeletedBody h.body then "redacted".data else "default".data
      let ar := attachStep (headerContent h.body) rest.head?
      match copyAttachment chatId fs ar.attachment with
      | .error e => .error e
      | .ok ref =>
        let cs := pyStrip ar.content
        -- lines 235-240: `message_format` and `formatted_content` are
        -- two variables, set together when detection finds markup
        let message_format : Option (List Char) :=
          if cs ≠ [] ∧ cs ≠ parseMarkdown cs true then some mdTag else none
        let formatted_content : Option (List Char) :=
          if cs ≠ [] ∧ cs ≠ parseMarkdown cs true
          then some (parseMarkdown cs false) else none
        match lookupAssoc gu h.sender with
        | none => .error (.keyError h.sender)
        | some u =>
          if validDateTime (2000 + h.year2) h.month h.day h.hour h.minute then
            let msg : WAMessage :=
              ⟨n, u.user_id, h.sender, u.avatar, u.color,
               (2000 + h.year2, h.month, h.day, h.hour, h.minute), mtype,
               (if cs ≠ [] then some cs else none), message_format, formatted_content,
               ref.map (fun a => [a])⟩
            backupLoop chatId gu fs rest ar.skipNext (msgs ++ [msg]) (n + 1)
          else .error .valueError
    | none =>
      match msgs.getLast? with
      | none => backupLoop chatId gu fs rest false msgs n
      | some last =>
        if matchSkipPattern l then backupLoop chatId gu fs rest false msgs n
        else
          let newc :=
            if contentTruthy last.content
            then last.content.getD [] ++ '\n' :: pyStrip l
            else pyStrip l
          backupLoop chatId gu fs rest false (updateLast (applyCont · newc) msgs) n

/-- `backup_messages`: run the loop on the transcript's lines. -/
def backupMessages (chatId : List Char) (gu : List (List Char × GroupUser))
    (fs : List (List Char)) (lines : List (List Char)) : Except WAErr (List WAMessage) :=
  backupLoop chatId gu fs lines false [] 0

/-! ## Counting helpers for the message-count property -/

/-- Whether processing line `l` (with lookahead `next`) sets the
`skip` flag, i.e. consumes the following raw line. -/
def lookaheadConsumed (l : List Char) (next : Option (List Char)) : Bool :=
  match matchPattern l with
  | some h => (attachStep (headerContent h.body) next).skipNext
  | none => false

/-- The number of `MessageHeader` lines. -/
def headerLineCount (lines : List (List Char)) : Nat :=
  (lines.filter (fun l => (matchPattern l).isSome)).length

/-- The number of lines consumed by the one-line lookahead that are
themselves `MessageHeader` lines (and hence never emitted). -/
def consumedHeaderCount : Bool → List (List Char) → Nat
  | _, [] => 0
  | true, l :: rest =>
    (if (matchPattern l).isSome then 1 else 0) + consumedHeaderCount false rest
  | false, l :: rest => consumedHeaderCount (lookaheadConsumed l rest.head?) rest

/-- Decidable equality on `Except`, for evaluating concrete runs. -/
instance {ε α : Type} [DecidableEq ε] [DecidableEq α] : DecidableEq (Except ε α) := fun a b =>
  match a, b with
  | .ok x, .ok y => if h : x = y then .isTrue (by rw [h]) else .isFalse (by simp [h])
  | .error x, .error y => if h : x = y then .isTrue (by rw [h]) else .isFalse (by simp [h])
  | .ok _, .error _ => .isFalse (by simp)
  | .error _, .ok _ => .isFalse (by simp)

/-! ## Identity of the detection passes on markup-free text

Each pass leaves a string unchanged when it contains at most one
occurrence of the pass's delimiter (an unmatched delimiter is passed
through as literal text) and at most one backtick (so the protective
triple-backtick alternative cannot fire either). -/

lemma singleton_not_isPrefixOf {c : Char} {t : List Char} (h : c ∉ t) :
    [c].isPrefixOf t = false := by
  cases t with
  | nil => rfl
  | cons a t' =>
    have : (c == a) = false :=
      beq_eq_false_iff_ne.mpr (fun hc => h (hc ▸ List.mem_cons_self a t'))
    simp [List.isPrefixOf, this]

lemma lazySpan_single_none {c : Char} {t : List Char} (b : Bool) (h : c ∉ t) :
    lazySpan b [c] t = none := by
  induction t with
  | nil => rfl
  | cons a t' ih =>
    have h' : c ∉ t' := fun hm => h (List.mem_cons_of_mem a hm)
    simp only [lazySpan, singleton_not_isPrefixOf h', Bool.false_eq_true, if_false,
      ih h', Option.map_none']
    split <;> rfl

lemma tick3_not_isPrefixOf {s : List Char} (h : s.count tickChar ≤ 1) :
    tick3.isPrefixOf s = false := by
  match s with
  | [] => rfl
  | [a] =>
    by_cases ha : tickChar = a
    · simp [tick3, List.isPrefixOf, ha, List.isPrefixOf_nil_left]
    · have : (tickChar == a) = false := beq_eq_false_iff_ne.mpr ha
      simp [tick3, List.isPrefixOf, this]
  | a :: b :: t =>
    by_cases ha : a = tickChar
    · subst ha
      have hb : b ≠ tickChar := by
        intro hb; subst hb
        simp [List.count_cons] at h
      have : (tickChar == b) = false := beq_eq_false_iff_ne.mpr (Ne.symm hb)
      simp [tick3, List.isPrefixOf, this]
    · have : (tickChar == a) = false := beq_eq_false_iff_ne.mpr (Ne.symm ha)
      simp [tick3, List.isPrefixOf, this]

lemma tickAlt_none {s : List Char} (h : s.count tickChar ≤ 1) : tickAlt s = none := by
  simp [tickAlt, tick3_not_isPrefixOf h]

lemma count_le_of_tail {c a : Char} {t : List Char} (h : (a :: t).count c ≤ 1) :
    t.count c ≤ 1 := by
  simp [List.count_cons] at h ⊢
  split at h <;> omega

lemma count_pos_of_mem {c : Char} {t : List Char} (h : c ∈ t) : 1 ≤ t.count c := by
  induction t with
  | nil => cases h
  | cons a t ih =>
    rw [List.count_cons]
    rcases List.mem_cons.mp h with h1 | h2
    · subst h1; simp
    · have := ih h2; split <;> omega

lemma not_mem_of_count_cons {c a : Char} {t : List Char} (ha : a = c)
    (h : (a :: t).count c ≤ 1) : c ∉ t := by
  subst ha
  intro hm
  have h1 := count_pos_of_mem hm
  rw [List.count_cons] at h
  simp at h
  omega

lemma italicScan_id {f : Nat} {prev : Option Char} {s : List Char}
    (ht : s.count tickChar ≤ 1) (hu : s.count '_' ≤ 1) :
    italicScan f prev s = s := by
  induction f generalizing prev s with
  | zero => cases s <;> rfl
  | succ f ih =>
    cases s with
    | nil => rfl
    | cons a t =>
      have ht' := count_le_of_tail ht
      have hu' := count_le_of_tail hu
      simp only [italicScan, tickAlt_none ht]
      by_cases ha : a = '_'
      · subst ha
        have : '_' ∉ t := not_mem_of_count_cons rfl hu
        simp [lazySpan_single_none _ this, ih ht' hu']
      · simp [ha, ih ht' hu']

lemma dropWhile_ne_eq_nil {d : Char} {l : List Char} (h : d ∉ l) :
    l.dropWhile (· ≠ d) = [] := by
  induction l with
  | nil => rfl
  | cons a t ih =>
    have ha : a ≠ d := fun he => h (he ▸ List.mem_cons_self a t)
    have hp : (decide (a ≠ d)) = true := by simp [ha]
    simp only [List.dropWhile_cons, hp, if_true]
    exact ih (fun hm => h (List.mem_cons_of_mem a hm))

lemma spanTryW_none {d : Char} {ot ct : List Char} {a : Char} {t : List Char}
    (hd : (a :: t).count d ≤ 1) : spanTryW d ot ct a t = none := by
  cases t with
  | nil => simp [spanTryW]
  | cons d' t2 =>
    by_cases hd' : d' = d
    · -- the opening delimiter is the single occurrence; no closing one
      have hdw : t2.dropWhile (· ≠ d) = [] :=
        dropWhile_ne_eq_nil (not_mem_of_count_cons hd' (count_le_of_tail hd))
      simp only [spanTryW, hd']
      rw [hdw]
      simp
    · simp [spanTryW, hd']

lemma spanTryS_none {d : Char} {ot ct : List Char} {atStart : Bool} {a : Char}
    {t : List Char} (hd : (a :: t).count d ≤ 1) :
    spanTryS d ot ct atStart a t = none := by
  by_cases ha : a = d
  · have hdw : t.dropWhile (· ≠ d) = [] := dropWhile_ne_eq_nil (not_mem_of_count_cons ha hd)
    simp only [spanTryS, ha]
    rw [hdw]
    simp
  · simp [spanTryS, ha]

lemma spanTry_none {d : Char} {ot ct : List Char} {atStart : Bool} {a : Char}
    {t : List Char} (hd : (a :: t).count d ≤ 1) :
    spanTry d ot ct atStart a t = none := by
  simp [spanTry, spanTryW_none hd, spanTryS_none hd]

lemma spanScan_id {d : Char} {ot ct : List Char} {f : Nat} {prev : Option Char}
    {s : List Char} (ht : s.count tickChar ≤ 1) (hd : s.count d ≤ 1) :
    spanScan d ot ct f prev s = s := by
  induction f generalizing prev s with
  | zero => cases s <;> rfl
  | succ f ih =>
    cases s with
    | nil => rfl
    | cons a t =>
      simp only [spanScan, tickAlt_none ht, spanTry_none hd]
      simp [ih (count_le_of_tail ht) (count_le_of_tail hd)]

lemma monoScan_id {f : Nat} {s : List Char} (ht : s.count tickChar ≤ 1) :
    monoScan f s = s := by
  induction f generalizing s with
  | zero => cases s <;> rfl
  | succ f ih =>
    cases s with
    | nil => rfl
    | cons a t =>
      simp only [monoScan, tick3_not_isPrefixOf ht]
      simp [ih (count_le_of_tail ht)]

/-- Core identity: in detection mode, a string with at most one
occurrence of each delimiter character renders to itself (escaped-for-
HTML or not, no pass can fire; unmatched delimiters are literal). -/
lemma parseMarkdown_detect_id {s : List Char}
    (ht : s.count tickChar ≤ 1) (hu : s.count '_' ≤ 1)
    (hb : s.count '*' ≤ 1) (hk : s.count '~' ≤ 1) :
    parseMarkdown s true = s := by
  show monoPass (strikePass (boldPass (italicPass s))) = s
  rw [show italicPass s = s from italicScan_id ht hu,
      show boldPass s = s from spanScan_id ht hb,
      show strikePass s = s from spanScan_id ht hk,
      show monoPass s = s from monoScan_id ht]

/-! ## Protection of single-line monospace spans

A triple-backtick span whose interior contains no newline and no
backtick is consumed whole by the protective first alternative of the
italic, bold and strikethrough passes, and rendered by the monospace
pass. -/

lemma italicScan_nil {f : Nat} {p : Option Char} : italicScan f p [] = [] := by
  cases f <;> rfl

lemma spanScan_nil {d : Char} {ot ct : List Char} {f : Nat} {p : Option Char} :
    spanScan d ot ct f p [] = [] := by
  cases f <;> rfl

lemma monoScan_nil {f : Nat} : monoScan f [] = [] := by
  cases f <;> rfl

lemma tick3_not_isPrefixOf_cons {a : Char} {t : List Char} (ha : a ≠ tickChar) :
    tick3.isPrefixOf (a :: t) = false := by
  have : (tickChar == a) = false := beq_eq_false_iff_ne.mpr (Ne.symm ha)
  simp [tick3, List.isPrefixOf, this]

lemma tick3_isPrefixOf_append {r : List Char} : tick3.isPrefixOf (tick3 ++ r) = true := by
  simp [List.isPrefixOf_iff_prefix, List.prefix_append]

lemma lazySpan_tick3_append {b : Bool} {dd r : List Char} (hne : dd ≠ [])
    (hnl : '\n' ∉ dd) (hnt : tickChar ∉ dd) :
    lazySpan b tick3 (dd ++ tick3 ++ r) = some (dd, r) := by
  induction dd with
  | nil => exact absurd rfl hne
  | cons a t ih =>
    have ha : a ≠ '\n' := fun he => hnl (he ▸ List.mem_cons_self a t)
    have hcond : (b && decide (a = '\n')) = false := by simp [ha]
    show lazySpan b tick3 (a :: (t ++ tick3 ++ r)) = some (a :: t, r)
    rw [lazySpan, hcond]
    cases t with
    | nil =>
      show (if tick3.isPrefixOf (tick3 ++ r) then
              some ([a], (tick3 ++ r).drop tick3.length)
            else ((lazySpan b tick3 (tick3 ++ r)).map fun p => (a :: p.1, p.2))) = _
      rw [tick3_isPrefixOf_append]
      simp [tick3]
    | cons a2 t2 =>
      have ha2 : a2 ≠ tickChar := fun he =>
        hnt (he ▸ List.mem_cons_of_mem a (List.mem_cons_self a2 t2))
      have ih' := ih (by simp)
        (fun hm => hnl (List.mem_cons_of_mem a hm))
        (fun hm => hnt (List.mem_cons_of_mem a hm))
      show (if tick3.isPrefixOf (a2 :: (t2 ++ tick3 ++ r)) then
              some ([a], ((a2 :: t2 ++ tick3 ++ r)).drop tick3.length)
            else ((lazySpan b tick3 (a2 :: (t2 ++ tick3 ++ r))).map
                    fun p => (a :: p.1, p.2))) = _
      rw [tick3_not_isPrefixOf_cons ha2]
      have ih2 : lazySpan b tick3 (a2 :: (t2 ++ tick3 ++ r)) = some (a2 :: t2, r) := ih'
      rw [if_neg (by simp), ih2]
      rfl

lemma tickAlt_protected {dd : List Char} (hne : dd ≠ []) (hnl : '\n' ∉ dd)
    (hnt : tickChar ∉ dd) :
    tickAlt (tick3 ++ dd ++ tick3) = some (dd, []) := by
  have hlz := lazySpan_tick3_append (b := true) (r := []) hne hnl hnt
  rw [List.append_nil] at hlz
  have hdrop : (tick3 ++ dd ++ tick3).drop 3 = dd ++ tick3 := by
    simp [tick3]
  have hpre : tick3.isPrefixOf (tick3 ++ dd ++ tick3) = true := by
    rw [List.append_assoc]; exact tick3_isPrefixOf_append
  rw [tickAlt, hpre, if_pos rfl, hdrop, hlz]

lemma italicScan_protected {f : Nat} {prev : Option Char} {dd : List Char}
    (hne : dd ≠ []) (hnl : '\n' ∉ dd) (hnt : tickChar ∉ dd) :
    italicScan f prev (tick3 ++ dd ++ tick3) = tick3 ++ dd ++ tick3 := by
  cases f with
  | zero =>
    show italicScan 0 prev (tickChar :: tickChar :: tickChar :: (dd ++ tick3)) = _
    rfl
  | succ f =>
    have hta := tickAlt_protected hne hnl hnt
    show italicScan (f + 1) prev (tickChar :: tickChar :: tickChar :: (dd ++ tick3)) = _
    rw [italicScan]
    have hta' : tickAlt (tickChar :: tickChar :: tickChar :: (dd ++ tick3)) = some (dd, []) := by
      simpa [tick3] using hta
    rw [hta']
    show tick3 ++ dd ++ tick3 ++ italicScan f (some tickChar) [] = _
    rw [italicScan_nil, List.append_nil]

lemma spanScan_protected {d : Char} {ot ct : List Char} {f : Nat} {prev : Option Char}
    {dd : List Char} (hne : dd ≠ []) (hnl : '\n' ∉ dd) (hnt : tickChar ∉ dd) :
    spanScan d ot ct f prev (tick3 ++ dd ++ tick3) = tick3 ++ dd ++ tick3 := by
  cases f with
  | zero =>
    show spanScan d ot ct 0 prev (tickChar :: tickChar :: tickChar :: (dd ++ tick3)) = _
    rfl
  | succ f =>
    have hta := tickAlt_protected hne hnl hnt
    show spanScan d ot ct (f + 1) prev (tickChar :: tickChar :: tickChar :: (dd ++ tick3)) = _
    rw [spanScan]
    have hta' : tickAlt (tickChar :: tickChar :: tickChar :: (dd ++ tick3)) = some (dd, []) := by
      simpa [tick3] using hta
    rw [hta']
    show tick3 ++ dd ++ tick3 ++ spanScan d ot ct f (some tickChar) [] = _
    rw [spanScan_nil, List.append_nil]

lemma monoScan_protected {f : Nat} {dd : List Char} (hne : dd ≠ []) (hnl : '\n' ∉ dd)
    (hnt : tickChar ∉ dd) :
    monoScan (f + 1) (tick3 ++ dd ++ tick3) = "<pre>".data ++ dd ++ "</pre>".data := by
  have hlz := lazySpan_tick3_append (b := false) (r := []) hne hnl hnt
  rw [List.append_nil] at hlz
  show monoScan (f + 1) (tickChar :: tickChar :: tickChar :: (dd ++ tick3)) = _
  rw [monoScan]
  have hpre : tick3.isPrefixOf (tickChar :: tickChar :: tickChar :: (dd ++ tick3)) = true := by
    have h := tick3_isPrefixOf_append (r := dd ++ tick3)
    rw [show tick3 ++ (dd ++ tick3) = tickChar :: tickChar :: tickChar :: (dd ++ tick3)
          from rfl] at h
    exact h
  rw [hpre, if_pos rfl]
  show (match lazySpan false tick3 (dd ++ tick3) with
        | some (d, r) => "<pre>".data ++ d ++ "</pre>".data ++ monoScan f r
        | none => tickChar :: monoScan f (tickChar :: tickChar :: (dd ++ tick3))) = _
  rw [hlz]
  show "<pre>".data ++ dd ++ "</pre>".data ++ monoScan f [] = _
  rw [monoScan_nil, List.append_nil]

/-! ## The continuation step -/

lemma updateLast_concat (f : WAMessage → WAMessage) (msgs : List WAMessage)
    (m : WAMessage) : updateLast f (msgs ++ [m]) = msgs ++ [f m] := by
  induction msgs with
  | nil => rfl
  | cons a l ih =>
    cases l with
    | nil => rfl
    | cons b l2 =>
      show a :: updateLast f (b :: l2 ++ [m]) = a :: (b :: l2 ++ [f m])
      rw [ih]

lemma updateLast_length (f : WAMessage → WAMessage) (msgs : List WAMessage) :
    (updateLast f msgs).length = msgs.length := by
  induction msgs with
  | nil => rfl
  | cons a l ih =>
    cases l with
    | nil => rfl
    | cons b l2 =>
      show (a :: updateLast f (b :: l2)).length = (a :: b :: l2).length
      simp only [List.length_cons]
      exact congrArg (· + 1) ih

lemma applyCont_content (m : WAMessage) (x : List Char) :
    (applyCont m x).content = some x := by
  unfold applyCont; split <;> rfl

lemma applyCont_attachments (m : WAMessage) (x : List Char) :
    (applyCont m x).attachments = m.attachments := by
  unfold applyCont; split <;> rfl

/-- One continuation step: a line that is neither a header nor a
notice, arriving while the pending message's content is a non-empty
string, appends a newline plus the stripped line to that content (and
re-evaluates markup detection inside `applyCont`). -/
lemma backupLoop_cont_step (chatId : List Char) (gu : List (List Char × GroupUser))
    (fs : List (List Char)) (line : List Char) (rest : List (List Char))
    (msgs : List WAMessage) (m : WAMessage) (n : Nat) (c : List Char)
    (hp : matchPattern line = none) (hs : matchSkipPattern line = false)
    (hc : m.content = some c) (hne : c ≠ []) :
    backupLoop chatId gu fs (line :: rest) false (msgs ++ [m]) n =
      backupLoop chatId gu fs rest false
        (msgs ++ [applyCont m (c ++ '\n' :: pyStrip line)]) n := by
  have hlast : (msgs ++ [m]).getLast? = some m := List.getLast?_concat _
  have htruthy : contentTruthy (some c) = true := by
    simp [contentTruthy, hne]
  simp only [backupLoop, hp, hlast, hs, Bool.false_eq_true, if_false, htruthy, if_true,
    hc, Option.getD_some, updateLast_concat]

/-! ## Message-count bookkeeping -/

lemma headerLineCount_cons (l : List Char) (rest : List (List Char)) :
    headerLineCount (l :: rest) =
      (if (matchPattern l).isSome then 1 else 0) + headerLineCount rest := by
  simp only [headerLineCount, List.filter_cons]
  split <;> simp [Nat.add_comm]

/-- Invariant of the assembler loop: on a successful run, the number
of emitted messages plus the number of header lines consumed by the
lookahead equals the number of accumulated messages plus the number of
header lines in the remaining input. -/
lemma backupLoop_count (chatId : List Char) (gu : List (List Char × GroupUser))
    (fs : List (List Char)) :
    ∀ (lines : List (List Char)) (skip : Bool) (msgs : List WAMessage) (n : Nat)
      (out : List WAMessage),
      backupLoop chatId gu fs lines skip msgs n = .ok out →
      out.length + consumedHeaderCount skip lines = msgs.length + headerLineCount lines := by
  intro lines
  induction lines with
  | nil =>
    intro skip msgs n out h
    have hmo : msgs = out := by
      have : (Except.ok msgs : Except WAErr (List WAMessage)) = .ok out := h
      exact Except.ok.inj this
    subst hmo
    simp [consumedHeaderCount, headerLineCount]
  | cons l rest ih =>
    intro skip msgs n out h
    cases skip with
    | true =>
      have h' : backupLoop chatId gu fs rest false msgs n = .ok out := h
      have hih := ih false msgs n out h'
      show out.length + ((if (matchPattern l).isSome then 1 else 0)
            + consumedHeaderCount false rest) = _
      rw [headerLineCount_cons]
      omega
    | false =>
      cases hm : matchPattern l with
      | none =>
        simp only [backupLoop, hm] at h
        have hcons : consumedHeaderCount false (l :: rest) =
            consumedHeaderCount false rest := by
          show consumedHeaderCount (lookaheadConsumed l rest.head?) rest = _
          simp [lookaheadConsumed, hm]
        rw [hcons, headerLineCount_cons, hm]
        cases hg : msgs.getLast? with
        | none =>
          simp only [hg] at h
          have hih := ih false msgs n out h
          simpa using hih
        | some last =>
          simp only [hg] at h
          by_cases hsk : matchSkipPattern l = true
          · rw [if_pos hsk] at h
            have hih := ih false msgs n out h
            simpa using hih
          · rw [if_neg hsk] at h
            have hih := ih false _ n out h
            rw [updateLast_length] at hih
            simpa using hih
      | some hd =>
        simp only [backupLoop, hm] at h
        have hcons : consumedHeaderCount false (l :: rest) =
            consumedHeaderCount (attachStep (headerContent hd.body) rest.head?).skipNext
              rest := by
          show consumedHeaderCount (lookaheadConsumed l rest.head?) rest = _
          simp [lookaheadConsumed, hm]
        rw [hcons, headerLineCount_cons, hm]
        split at h
        · exact absurd h (by simp)
        · split at h
          · exact absurd h (by simp)
          · split at h
            · have hih := ih _ _ _ out h
              simp only [List.length_append, List.length_cons, List.length_nil] at hih
              simp only [Option.isSome_some, if_true]
              omega
            · exact absurd h (by simp)

/-! ## The at-most-one-attachment invariant -/

/-- A message record carries either no attachment list or a singleton
one (`json.dumps([attachment]) if attachment else None`). -/
def attachmentsOk (m : WAMessage) : Prop :=
  m.attachments = none ∨ ∃ a, m.attachments = some [a]

lemma updateLast_mem {f : WAMessage → WAMessage} {l : List WAMessage} {x : WAMessage}
    (hx : x ∈ updateLast f l) : x ∈ l ∨ ∃ y ∈ l, x = f y := by
  induction l generalizing x with
  | nil => cases hx
  | cons a t ih =>
    cases t with
    | nil =>
      rcases List.mem_singleton.mp hx with h1
      exact Or.inr ⟨a, List.mem_singleton.mpr rfl, h1⟩
    | cons b t2 =>
      rcases List.mem_cons.mp hx with h1 | h2
      · exact Or.inl (h1 ▸ List.mem_cons_self a (b :: t2))
      · rcases ih h2 with h3 | ⟨y, hy, he⟩
        · exact Or.inl (List.mem_cons_of_mem a h3)
        · exact Or.inr ⟨y, List.mem_cons_of_mem a hy, he⟩

lemma backupLoop_attachments (chatId : List Char) (gu : List (List Char × GroupUser))
    (fs : List (List Char)) :
    ∀ (lines : List (List Char)) (skip : Bool) (msgs : List WAMessage) (n : Nat)
      (out : List WAMessage),
      backupLoop chatId gu fs lines skip msgs n = .ok out →
      (∀ m ∈ msgs, attachmentsOk m) → ∀ m ∈ out, attachmentsOk m := by
  intro lines
  induction lines with
  | nil =>
    intro skip msgs n out h hall
    have hmo : msgs = out := Except.ok.inj h
    exact hmo ▸ hall
  | cons l rest ih =>
    intro skip msgs n out h hall
    cases skip with
    | true => exact ih false msgs n out h hall
    | false =>
      cases hm : matchPattern l with
      | none =>
        simp only [backupLoop, hm] at h
        cases hg : msgs.getLast? with
        | none =>
          simp only [hg] at h
          exact ih false msgs n out h hall
        | some last =>
          simp only [hg] at h
          by_cases hsk : matchSkipPattern l = true
          · rw [if_pos hsk] at h
            exact ih false msgs n out h hall
          · rw [if_neg hsk] at h
            refine ih false _ n out h ?_
            intro m hmem
            rcases updateLast_mem hmem with h1 | ⟨y, hy, he⟩
            · exact hall m h1
            · have hyok := hall y hy
              unfold attachmentsOk at hyok ⊢
              rw [he, applyCont_attachments]
              exact hyok
      | some hd =>
        simp only [backupLoop, hm] at h
        cases hcp : copyAttachment chatId fs
            (attachStep (headerContent hd.body) rest.head?).attachment with
        | error e => simp only [hcp] at h; exact Except.noConfusion h
        | ok ref =>
          simp only [hcp] at h
          cases hlk : lookupAssoc gu hd.sender with
          | none => simp only [hlk] at h; exact Except.noConfusion h
          | some u =>
            simp only [hlk] at h
            by_cases hdt :
                validDateTime (2000 + hd.year2) hd.month hd.day hd.hour hd.minute = true
            · rw [if_pos hdt] at h
              refine ih _ _ _ out h ?_
              intro m hmem
              rcases List.mem_append.mp hmem with h1 | h2
              · exact hall m h1
              · rw [List.mem_singleton.mp h2]
                cases ref with
                | none => exact Or.inl rfl
                | some a => exact Or.inr ⟨a, rfl⟩
            · rw [if_neg hdt] at h
              exact Except.noConfusion h

/-! ## Attachment detection is independent of the lookahead -/

/-- When the image pattern matches, the attachment recorded is group 2
whatever the following line is (the lookahead only decides the caption
and the skip flag). -/
lemma attachStep_attachment_img {content g1 g2 : List Char}
    (h : imgScan content = some (g1, g2)) :
    ∀ next, (attachStep content next).attachment = some g2 := by
  intro next
  unfold attachStep
  simp only [h]
  cases next with
  | none => rfl
  | some nxt =>
    show (if (!(matchPattern nxt).isSome && !matchSkipPattern nxt) = true then
            ({ content := g1 ++ nxt, attachment := some g2, skipNext := true } : AttachResult)
          else { content := g1, attachment := some g2, skipNext := false }).attachment =
      some g2
    split <;> rfl

/-! ## The image-attachment caption rule, in general -/

/-- Lines 218-221: when the image pattern matched, a following line
that is neither a `MessageHeader` nor a `SystemNotice` is appended to
the remaining body (group 1) and the skip flag is set. -/
lemma attachStep_img_caption {content g1 g2 nxt : List Char}
    (himg : imgScan content = some (g1, g2))
    (hnh : (matchPattern nxt).isSome = false) (hns : matchSkipPattern nxt = false) :
    attachStep content (some nxt) = ⟨g1 ++ nxt, some g2, true⟩ := by
  unfold attachStep
  simp only [himg]
  simp [hnh, hns]

/-- Conversely, a following line matching `skip_pattern` (every header
or notice does) is not consumed: the content stays group 1 and the
skip flag stays clear. -/
lemma attachStep_img_noCaption {content g1 g2 nxt : List Char}
    (himg : imgScan content = some (g1, g2))
    (hns : matchSkipPattern nxt = true) :
    attachStep content (some nxt) = ⟨g1, some g2, false⟩ := by
  unfold attachStep
  simp only [himg]
  simp [hns]

/-- The caption rule at the assembler level: for every header line
whose (non-deleted) body matches the image pattern, followed by a line
that is neither a header nor a notice, the loop emits one message
whose content is built from `group 1 ++ caption` and resumes after the
consumed caption line. -/
lemma backupLoop_img_caption_step (chatId : List Char)
    (gu : List (List Char × GroupUser)) (fs : List (List Char)) (l nxt : List Char)
    (rest : List (List Char)) (msgs : List WAMessage) (n : Nat) (h : WAHeader)
    (g1 g2 : List Char) (u : GroupUser)
    (hm : matchPattern l = some h) (hdel : isDeletedBody h.body = false)
    (himg : imgScan h.body = some (g1, g2))
    (hnh : (matchPattern nxt).isSome = false) (hns : matchSkipPattern nxt = false)
    (hfs : fs.contains g2 = true) (hlk : lookupAssoc gu h.sender = some u)
    (hdt : validDateTime (2000 + h.year2) h.month h.day h.hour h.minute = true) :
    backupLoop chatId gu fs (l :: nxt :: rest) false msgs n =
      backupLoop chatId gu fs rest false
        (msgs ++ [⟨n, u.user_id, h.sender, u.avatar, u.color,
          (2000 + h.year2, h.month, h.day, h.hour, h.minute), "default".data,
          (if pyStrip (g1 ++ nxt) ≠ [] then some (pyStrip (g1 ++ nxt)) else none),
          (if pyStrip (g1 ++ nxt) ≠ [] ∧
              pyStrip (g1 ++ nxt) ≠ parseMarkdown (pyStrip (g1 ++ nxt)) true
            then some mdTag else none),
          (if pyStrip (g1 ++ nxt) ≠ [] ∧
              pyStrip (g1 ++ nxt) ≠ parseMarkdown (pyStrip (g1 ++ nxt)) true
            then some (parseMarkdown (pyStrip (g1 ++ nxt)) false) else none),
          some [chatId ++ '/' :: ntBasename g2]⟩]) (n + 1) := by
  have hhc : headerContent h.body = h.body := by simp [headerContent, hdel]
  have har : attachStep (headerContent h.body) ((nxt :: rest).head?) =
      ⟨g1 ++ nxt, some g2, true⟩ := by
    rw [List.head?_cons, hhc]
    exact attachStep_img_caption himg hnh hns
  have hcp : copyAttachment chatId fs (some g2) =
      .ok (some (chatId ++ '/' :: ntBasename g2)) := by
    simp only [copyAttachment]
    rw [hfs]
    rfl
  have hmt : (if isDeletedBody h.body then "redacted".data else "default".data) =
      "default".data := by simp [hdel]
  simp only [backupLoop, hm, har, hmt, hcp, hlk, hdt, Option.map_some',
    eq_self_iff_true, if_true]

/-! ## The identity registry: `backup_users(filepath, existing_users, existing_ids)`

The interactive loops (`input()` prompts) are embedded over an
explicit list of input strings; exhausting the inputs (EOF) yields
`none`.  The `while len(user_id) == 0` loop re-evaluates the
info.json and existing-user checks on every iteration, as the source
does; it is embedded with a fuel argument, ample because every
iteration that loops again has consumed at least one input.  Avatar
file copies and their `shortuuid` renaming are abstracted: the stored
avatar value is the accepted source value (the claims checked here
concern identity handling, not avatar contents). -/

/-- One entry of `info["users"]` from `info.json`. -/
structure InfoUser where
  user_id : List Char
  avatar : Option (List Char)
  color : Option (List Char)
  deriving DecidableEq, Repr

/-- One value of the `new_users` dictionary (keyed by user id). -/
structure RegUser where
  name : List Char
  avatar : List Char
  color : Option (List Char)
  deriving DecidableEq, Repr

def lookupInfo (iu : List (List Char × InfoUser)) (k : List Char) : Option InfoUser :=
  (iu.find? (fun p => p.1 == k)).map (·.2)

/-- Python dict assignment `d[k] = v`: overwrite in place if the key
exists, append otherwise. -/
def dictInsert {α : Type} (l : List (List Char × α)) (k : List Char) (v : α) :
    List (List Char × α) :=
  if l.any (fun p => p.1 == k) then l.map (fun p => if p.1 == k then (k, v) else p)
  else l ++ [(k, v)]

/-- Python set add `s.add(x)`. -/
def idInsert (ids : List (List Char)) (x : List Char) : List (List Char) :=
  if x ∈ ids then ids else ids ++ [x]

/-- `validate_color`: `re.search(r"^#(?:[0-9a-fA-F]{3}){1,2}$", color)`. -/
def validColor (c : List Char) : Bool :=
  match c with
  | '#' :: h =>
    h.all (fun ch => ch.isDigit || (ch ≥ 'a' && ch ≤ 'f') || (ch ≥ 'A' && ch ≤ 'F')) &&
      (h.length = 3 || h.length = 6)
  | _ => false

/-- The sender names collected by `user_regex` (the same sender/body
grammar as the header pattern), deduplicated.  The source stores them
in a Python `set`, whose iteration order is unspecified; first
appearance order is used here, and the properties proved about the
registry are order-independent. -/
def namesOf (lines : List (List Char)) : List (List Char) :=
  (lines.filterMap (fun l => (matchPattern l).map (·.sender))).foldl
    (fun acc x => if x ∈ acc then acc else acc ++ [x]) []

/-- How the `while len(user_id) == 0` loop (lines 93-135) terminates
for one name. -/
inductive IdOutcome where
  /-- The name is found in `info.json`: its user id is taken as-is. -/
  | fromInfo : InfoUser → IdOutcome
  /-- The name exists from a previous chat and the operator answered
  `y` to the skip prompt. -/
  | skipExisting : GroupUser → IdOutcome
  /-- A manually entered phone number, accepted. -/
  | fresh : List Char → IdOutcome
  deriving DecidableEq, Repr

/-- The `Skip? (y/n)` prompt loop (lines 117-126). -/
def ynLoop : List (List Char) → Option (Bool × List (List Char))
  | [] => none
  | i :: rest =>
    let r := pyLower (pyStrip i)
    if r = "y".data then some (true, rest)
    else if r = "n".data then some (false, rest)
    else ynLoop rest

/-- Lines 93-135: acquire a user id for `name`.  A manually entered id
that is empty or already belongs to someone else (`existing_ids`) is
rejected with an error message and the whole loop body re-runs. -/
def userIdLoop (name : List Char) (infoUsers : List (List Char × InfoUser))
    (existingUsers : List (List Char × GroupUser)) (existingIds : List (List Char)) :
    Nat → List (List Char) → Option (IdOutcome × List (List Char))
  | 0, _ => none
  | fuel + 1, inputs =>
    match lookupInfo infoUsers name with
    | some iu => some (.fromInfo iu, inputs)
    | none =>
      match lookupAssoc existingUsers name with
      | some g =>
        match ynLoop inputs with
        | none => none
        | some (true, rest) => some (.skipExisting g, rest)
        | some (false, rest) =>
          match rest with
          | [] => none
          | inp :: rest2 =>
            let uid := pyStrip inp
            if uid ∈ existingIds ∨ uid = [] then
              userIdLoop name infoUsers existingUsers existingIds fuel rest2
            else some (.fresh uid, rest2)
      | none =>
        match inputs with
        | [] => none
        | inp :: rest =>
          let uid := pyStrip inp
          if uid ∈ existingIds ∨ uid = [] then
            userIdLoop name infoUsers existingUsers existingIds fuel rest
          else some (.fresh uid, rest)

/-- The avatar prompt loop (lines 143-146): accept the first non-empty
path naming an existing file. -/
def avatarLoop (fs : List (List Char)) : List (List Char) → Option (List Char × List (List Char))
  | [] => none
  | i :: rest =>
    let a := pyStrip i
    if a ≠ [] && fs.contains a then some (a, rest) else avatarLoop fs rest

/-- The color prompt loop (lines 154-161): empty input means no color,
otherwise the first valid hex code is accepted. -/
def colorLoop : List (List Char) → Option (Option (List Char) × List (List Char))
  | [] => none
  | i :: rest =>
    let c := pyLower (pyStrip i)
    if c = [] then some (none, rest)
    else if validColor c then some (some c, rest)
    else colorLoop rest

/-- The mutable state threaded through the per-name iteration:
`new_users`, `group_users`, `existing_ids`, and the remaining operator
inputs. -/
structure RegState where
  newUsers : List (List Char × RegUser)
  groupUsers : List (List Char × GroupUser)
  existingIds : List (List Char)
  inputs : List (List Char)
  deriving DecidableEq, Repr

/-- One iteration of the `for name in names` loop (lines 86-175). -/
def processName (infoUsers : List (List Char × InfoUser))
    (existingUsers : List (List Char × GroupUser)) (fs : List (List Char))
    (st : RegState) (name : List Char) : Option RegState :=
  match userIdLoop name infoUsers existingUsers st.existingIds
      (st.inputs.length + 1) st.inputs with
  | none => none
  | some (.fromInfo iu, inputs1) =>
    match lookupAssoc existingUsers name with
    | none =>
      -- lines 97-109: a `None` avatar becomes the default; the copy
      -- and uuid renaming are abstracted
      let avatar := match iu.avatar with
        | none => "default.svg".data
        | some a => a
      some ⟨dictInsert st.newUsers iu.user_id ⟨name, avatar, iu.color⟩,
            dictInsert st.groupUsers name ⟨iu.user_id, avatar, iu.color⟩,
            idInsert st.existingIds iu.user_id, inputs1⟩
    | some ex =>
      -- line 111: keep the previously stored avatar; no new user
      some ⟨st.newUsers,
            dictInsert st.groupUsers name ⟨iu.user_id, ex.avatar, iu.color⟩,
            idInsert st.existingIds iu.user_id, inputs1⟩
  | some (.skipExisting g, inputs1) =>
    some ⟨st.newUsers, dictInsert st.groupUsers name g, st.existingIds, inputs1⟩
  | some (.fresh uid, inputs1) =>
    match avatarLoop fs inputs1 with
    | none => none
    | some (avatar, inputs2) =>
      match colorLoop inputs2 with
      | none => none
      | some (color, inputs3) =>
        some ⟨dictInsert st.newUsers uid ⟨name, avatar, color⟩,
              dictInsert st.groupUsers name ⟨uid, avatar, color⟩,
              idInsert st.existingIds uid, inputs3⟩

/-- `backup_users`: collect the names and register each in turn,
returning `(new_users, group_users)` along with the updated id set. -/
def backupUsers (lines : List (List Char)) (infoUsers : List (List Char × InfoUser))
    (existingUsers : List (List Char × GroupUser)) (existingIds : List (List Char))
    (fs : List (List Char)) (inputs : List (List Char)) : Option RegState :=
  (namesOf lines).foldlM (processName infoUsers existingUsers fs)
    ⟨[], [], existingIds, inputs⟩

/-! ## The manual registration path never accepts a taken id -/

/-- A manually entered id accepted by the acquisition loop is never
one already in `existing_ids` (duplicates are rejected and the prompt
repeats), and never empty. -/
lemma userIdLoop_fresh_not_existing {name : List Char}
    {infoUsers : List (List Char × InfoUser)}
    {existingUsers : List (List Char × GroupUser)} {existingIds : List (List Char)}
    (hinfo : lookupInfo infoUsers name = none) :
    ∀ (fuel : Nat) (inputs : List (List Char)) (uid : List Char)
      (rest : List (List Char)),
      userIdLoop name infoUsers existingUsers existingIds fuel inputs =
        some (.fresh uid, rest) →
      uid ∉ existingIds ∧ uid ≠ [] := by
  intro fuel
  induction fuel with
  | zero => intro inputs uid rest h; exact Option.noConfusion h
  | succ fuel ih =>
    intro inputs uid rest h
    simp only [userIdLoop, hinfo] at h
    cases hex : lookupAssoc existingUsers name with
    | some g =>
      simp only [hex] at h
      cases hyn : ynLoop inputs with
      | none => simp only [hyn] at h; exact Option.noConfusion h
      | some p =>
        obtain ⟨b, rest1⟩ := p
        cases b with
        | true =>
          simp only [hyn] at h
          have := Option.some.inj h
          exact IdOutcome.noConfusion (congrArg Prod.fst this)
        | false =>
          cases rest1 with
          | nil => simp only [hyn] at h; exact Option.noConfusion h
          | cons inp rest2 =>
            simp only [hyn] at h
            by_cases hc : pyStrip inp ∈ existingIds ∨ pyStrip inp = []
            · rw [if_pos hc] at h
              exact ih rest2 uid rest h
            · rw [if_neg hc] at h
              have h2 := Option.some.inj h
              have h3 : IdOutcome.fresh (pyStrip inp) = .fresh uid :=
                congrArg Prod.fst h2
              have h4 : pyStrip inp = uid := by injection h3
              push_neg at hc
              exact h4 ▸ ⟨hc.1, hc.2⟩
    | none =>
      cases inputs with
      | nil => simp only [hex] at h; exact Option.noConfusion h
      | cons inp rest2 =>
        simp only [hex] at h
        by_cases hc : pyStrip inp ∈ existingIds ∨ pyStrip inp = []
        · rw [if_pos hc] at h
          exact ih rest2 uid rest h
        · rw [if_neg hc] at h
          have h2 := Option.some.inj h
          have h3 : IdOutcome.fresh (pyStrip inp) = .fresh uid := congrArg Prod.fst h2
          have h4 : pyStrip inp = uid := by injection h3
          push_neg at hc
          exact h4 ▸ ⟨hc.1, hc.2⟩

/-! ## The search index: `index_messages`

`DROP TABLE IF EXISTS message_search` / `CREATE VIRTUAL TABLE
message_search USING FTS5(...)` / `INSERT INTO message_search SELECT
... FROM messages` are embedded as a function from the previous index
contents and the current message table to the new index contents: the
previous contents are discarded whole (full rebuild) and one row per
message is produced carrying exactly the selected columns. -/

/-- A row of the Matrix `messages` table, restricted to the columns
the indexing step and the claims mention. -/
structure MatrixMessage where
  id : List Char
  content : Option (List Char)
  format : Option (List Char)
  formatted_content : Option (List Char)
  edits : Option (List Char)
  deriving DecidableEq, Repr

/-- `src/whatsapp/whatsapp.py` lines 414-422: the index columns are
`(id, content)`. -/
def indexMessagesWA (_old : List (Nat × Option (List Char))) (msgs : List WAMessage) :
    List (Nat × Option (List Char)) :=
  msgs.map fun m => (m.id, m.content)

/-- `src/matrix/matrix-convertor.py` lines 168-176: the index columns
are `(id, content, edits)`. -/
def indexMessagesMx
    (_old : List (List Char × Option (List Char) × Option (List Char)))
    (msgs : List MatrixMessage) :
    List (List Char × Option (List Char) × Option (List Char)) :=
  msgs.map fun m => (m.id, m.content, m.edits)

/-! ## Fixtures for the concrete runs -/

/-- A `group_users` dictionary as `backup_users` would produce it. -/
def guFix : List (List Char × GroupUser) :=
  [("Bob".data, ⟨"919246462754".data, "bob.png".data, none⟩),
   ("Alice".data, ⟨"111".data, "alice.png".data, some "#ff0000".data⟩),
   ("Al".data, ⟨"222".data, "al.png".data, none⟩)]

/-- Attachment source files present in the transcript's directory. -/
def fsFix : List (List Char) := ["IMG-001.jpg".data, "IMG-002.jpg".data]

def c4Header : List Char := "01/01/23, 09:00 - Bob: IMG-001.jpg (file attached)".data

/-- A transcript whose second header line equals the first line's
attachment file name and is therefore consumed by the lookahead. -/
def c9Lines : List (List Char) :=
  ["01/01/23, 09:00 - Bob: 01/01/23, 09:01 - Al: x (file attached)".data,
   "01/01/23, 09:01 - Al: x".data]

/-- The pending message assembled from `"01/01/23, 09:00 - Alice: Hello"`. -/
def pendingMsgFix : WAMessage :=
  ⟨0, "111".data, "Alice".data, "alice.png".data, some "#ff0000".data,
   (2023, 1, 1, 9, 0), "default".data, some "Hello".data, none, none, none⟩

/-! ## The claims -/

/-- C1 (counterexample): with the body
`"look IMG-001.jpg (file attached)"` — non-empty after stripping the
attachment marker — the following line `"caption"` is nevertheless
consumed as caption and appended to the remaining body, yielding
content `"look caption"` (processing it as a continuation line, as the
claim's "only when the stripped body is empty" would require, would
have produced `"look\ncaption"`). -/
theorem C1_counterexample :
    backupMessages "chat1".data guFix fsFix
      ["01/01/23, 09:00 - Bob: look IMG-001.jpg (file attached)".data, "caption".data] =
    .ok [⟨0, "919246462754".data, "Bob".data, "bob.png".data, none, (2023, 1, 1, 9, 0),
          "default".data, some "look caption".data, none, none,
          some ["chat1/IMG-001.jpg".data]⟩] := by
  decide

/-- C1 (amended): when the body of a (non-deleted) MessageHeader
matches the embedded image-attachment pattern, the following raw line
is consumed as the caption whenever it is neither a valid
MessageHeader nor a SystemNotice — regardless of whether the stripped
body is empty: for every such header line, caption line, group-1
remainder and surrounding transcript and state, the assembler emits
one message whose content is built from `group 1 ++ caption` and
resumes after the consumed line; a following line that does match the
header-or-notice pattern is not consumed (the content stays group 1
and the skip flag stays clear).  In particular the header
`"01/01/23, 09:00 - Bob: IMG-001.jpg (file attached)"` followed by
`"nice photo"` yields exactly one message with one attachment
reference and content `"nice photo"`. -/
theorem C1_theorem :
    (∀ (chatId : List Char) (gu : List (List Char × GroupUser)) (fs : List (List Char))
        (l nxt : List Char) (rest : List (List Char)) (msgs : List WAMessage) (n : Nat)
        (h : WAHeader) (g1 g2 : List Char) (u : GroupUser),
      matchPattern l = some h → isDeletedBody h.body = false →
      imgScan h.body = some (g1, g2) →
      (matchPattern nxt).isSome = false → matchSkipPattern nxt = false →
      fs.contains g2 = true → lookupAssoc gu h.sender = some u →
      validDateTime (2000 + h.year2) h.month h.day h.hour h.minute = true →
      backupLoop chatId gu fs (l :: nxt :: rest) false msgs n =
        backupLoop chatId gu fs rest false
          (msgs ++ [⟨n, u.user_id, h.sender, u.avatar, u.color,
            (2000 + h.year2, h.month, h.day, h.hour, h.minute), "default".data,
            (if pyStrip (g1 ++ nxt) ≠ [] then some (pyStrip (g1 ++ nxt)) else none),
            (if pyStrip (g1 ++ nxt) ≠ [] ∧
                pyStrip (g1 ++ nxt) ≠ parseMarkdown (pyStrip (g1 ++ nxt)) true
              then some mdTag else none),
            (if pyStrip (g1 ++ nxt) ≠ [] ∧
                pyStrip (g1 ++ nxt) ≠ parseMarkdown (pyStrip (g1 ++ nxt)) true
              then some (parseMarkdown (pyStrip (g1 ++ nxt)) false) else none),
            some [chatId ++ '/' :: ntBasename g2]⟩]) (n + 1)) ∧
    (∀ (content g1 g2 nxt : List Char), imgScan content = some (g1, g2) →
      matchSkipPattern nxt = true →
      attachStep content (some nxt) = ⟨g1, some g2, false⟩) ∧
    (backupMessages "chat1".data guFix fsFix
        ["01/01/23, 09:00 - Bob: IMG-001.jpg (file attached)".data, "nice photo".data] =
      .ok [⟨0, "919246462754".data, "Bob".data, "bob.png".data, none, (2023, 1, 1, 9, 0),
            "default".data, some "nice photo".data, none, none,
            some ["chat1/IMG-001.jpg".data]⟩]) :=
  ⟨backupLoop_img_caption_step,
   fun _ _ _ _ himg hns => attachStep_img_noCaption himg hns,
   by decide⟩

/-- C1 (witness): the consumption rule exercised on the header
`"01/01/23, 09:00 - Bob: pic IMG-002.jpg (file attached)"` — whose
stripped body `"pic"` is non-empty — followed by the caption line
`"hello"`: one message with content `"pic hello"` is emitted and the
loop resumes past the consumed line. -/
theorem C1_witness :
    backupLoop "chat1".data guFix fsFix
        ["01/01/23, 09:00 - Bob: pic IMG-002.jpg (file attached)".data, "hello".data]
        false [] 0 =
      backupLoop "chat1".data guFix fsFix [] false
        [⟨0, "919246462754".data, "Bob".data, "bob.png".data, none, (2023, 1, 1, 9, 0),
          "default".data, some "pic hello".data, none, none,
          some ["chat1/IMG-002.jpg".data]⟩] 1 :=
  C1_theorem.1 "chat1".data guFix fsFix
    "01/01/23, 09:00 - Bob: pic IMG-002.jpg (file attached)".data "hello".data
    [] [] 0 ⟨1, 1, 23, 9, 0, "Bob".data, "pic IMG-002.jpg (file attached)".data⟩
    "pic ".data "IMG-002.jpg".data ⟨"919246462754".data, "bob.png".data, none⟩
    (by decide) (by decide) (by decide) (by decide) (by decide) (by decide) (by decide)
    (by decide)

/-- C2 (counterexample): for `s = "``` _a_ ```"`, the detection-mode
rendering is `"<pre> _a_ </pre>"` — the monospace pass has removed the
protecting backticks, so a second detection run finds the italic span
`_a_` and `has_markup` reports `true`, refuting
`has_markup(render_detect(s)) == False` for all `s`. -/
theorem C2_counterexample :
    hasMarkup (parseMarkdown "``` _a_ ```".data true) = true := by decide

/-- C2 (amended): detection-mode rendering is not always markup-free
(see the counterexample: delimiters protected inside a monospace span
survive into the `<pre>` rendering and are re-detected).  The
idempotence property does hold for inputs containing no markup
delimiter characters at all: such strings render, in detection mode,
to themselves, and `has_markup` reports no markup on them. -/
theorem C2_theorem (s : List Char) (ht : tickChar ∉ s) (hu : '_' ∉ s)
    (hb : '*' ∉ s) (hk : '~' ∉ s) :
    parseMarkdown s true = s ∧ hasMarkup s = false := by
  have h := parseMarkdown_detect_id (s := s)
    (Nat.le_of_lt (Nat.lt_of_le_of_lt (Nat.le_of_eq (List.count_eq_zero.mpr ht)) Nat.zero_lt_one))
    (Nat.le_of_lt (Nat.lt_of_le_of_lt (Nat.le_of_eq (List.count_eq_zero.mpr hu)) Nat.zero_lt_one))
    (Nat.le_of_lt (Nat.lt_of_le_of_lt (Nat.le_of_eq (List.count_eq_zero.mpr hb)) Nat.zero_lt_one))
    (Nat.le_of_lt (Nat.lt_of_le_of_lt (Nat.le_of_eq (List.count_eq_zero.mpr hk)) Nat.zero_lt_one))
  exact ⟨h, by simp [hasMarkup, h]⟩

/-- C2 (witness): the delimiter-free string `"hello world!"`. -/
theorem C2_witness :
    parseMarkdown "hello world!".data true = "hello world!".data ∧
    hasMarkup "hello world!".data = false :=
  C2_theorem _ (by decide) (by decide) (by decide) (by decide)

/-- C3 (counterexample): the monospace span in `"```x\n_y_```"` has a
newline in its interior, so the protective alternative of the italic
pass (whose `.` does not match a newline) fails to cover it and the
italic pass substitutes inside: the detection-mode rendering is
`"<pre>x\n<em>y</em></pre>"`, refuting the exemption of monospace
interiors "including spans whose interior contains newlines". -/
theorem C3_counterexample :
    parseMarkdown "```x\n_y_```".data true = "<pre>x\n<em>y</em></pre>".data := by decide

/-- C3 (amended): the interior of a monospace span is exempt from the
italic, bold and strikethrough passes only when it contains no newline
(the protective alternation lacks `re.DOTALL`): for every non-empty
newline-free backtick-free interior, the whole input consisting of
that span renders in detection mode to the `<pre>` block with the
interior untouched by the other passes. -/
theorem C3_theorem (dd : List Char) (hne : dd ≠ []) (hnl : '\n' ∉ dd)
    (hnt : tickChar ∉ dd) :
    parseMarkdown (tick3 ++ dd ++ tick3) true = "<pre>".data ++ dd ++ "</pre>".data := by
  show monoPass (strikePass (boldPass (italicPass (tick3 ++ dd ++ tick3)))) = _
  rw [show italicPass (tick3 ++ dd ++ tick3) = tick3 ++ dd ++ tick3 from
        italicScan_protected hne hnl hnt,
      show boldPass (tick3 ++ dd ++ tick3) = tick3 ++ dd ++ tick3 from
        spanScan_protected hne hnl hnt,
      show strikePass (tick3 ++ dd ++ tick3) = tick3 ++ dd ++ tick3 from
        spanScan_protected hne hnl hnt]
  exact monoScan_protected hne hnl hnt

/-- C3 (witness): the span interior `"_a_ *b* ~c~"`, full of would-be
italic, bold and strikethrough markup, passes through untouched. -/
theorem C3_witness :
    parseMarkdown (tick3 ++ "_a_ *b* ~c~".data ++ tick3) true =
      "<pre>".data ++ "_a_ *b* ~c~".data ++ "</pre>".data :=
  C3_theorem _ (by decide) (by decide) (by decide)

/-- C4 (counterexample): with the attachment source file missing, the
whole transcript conversion aborts with the uncaught copy error — the
attachment message is not emitted with its content intact, and the
following message is not parsed either, refuting the claim's contained
`AttachmentNotFound` recovery. -/
theorem C4_counterexample :
    backupMessages "chat1".data guFix []
      ["01/01/23, 09:00 - Bob: IMG-001.jpg (file attached)".data,
       "01/01/23, 09:01 - Bob: hello".data] =
    .error (.fileNotFound "IMG-001.jpg".data) := by decide

/-- C4 (amended): `shutil.copyfile` on a missing attachment source
raises an exception that `backup_messages` does not catch: whatever
the rest of the transcript is, the run aborts with the copy error and
emits no message at all (there is no per-message `AttachmentNotFound`
recovery in the code). -/
theorem C4_theorem (rest : List (List Char)) (chatId : List Char)
    (gu : List (List Char × GroupUser)) :
    backupMessages chatId gu [] (c4Header :: rest) =
      .error (.fileNotFound "IMG-001.jpg".data) := by
  have hm : matchPattern c4Header =
      some ⟨1, 1, 23, 9, 0, "Bob".data, "IMG-001.jpg (file attached)".data⟩ := by decide
  have himg : imgScan (headerContent "IMG-001.jpg (file attached)".data) =
      some ([], "IMG-001.jpg".data) := by decide
  have hatt := attachStep_attachment_img himg rest.head?
  show backupLoop chatId gu [] (c4Header :: rest) false [] 0 = _
  simp only [backupLoop, hm, hatt]
  rfl

/-- C5 (counterexample): when `info.json` assigns the same external
key `"123"` to the two distinct names `"Alice"` and `"Bob"`, both
registrations are accepted with no conflict reported, and the second
silently overwrites the first in the `new_users` dictionary keyed by
user id: only Bob's record survives (the run succeeds, so nothing was
"surfaced to the caller"). -/
theorem C5_counterexample :
    backupUsers
      ["01/01/23, 09:00 - Alice: hi".data, "01/01/23, 09:01 - Bob: yo".data]
      [("Alice".data, ⟨"123".data, some "a.png".data, none⟩),
       ("Bob".data, ⟨"123".data, some "b.png".data, none⟩)]
      [] [] [] [] =
    some ⟨[("123".data, ⟨"Bob".data, "b.png".data, none⟩)],
          [("Alice".data, ⟨"123".data, "a.png".data, none⟩),
           ("Bob".data, ⟨"123".data, "b.png".data, none⟩)],
          ["123".data], []⟩ := by decide

/-- C5 (amended): only the manual phone-number path enforces
uniqueness of external keys: an id accepted by the acquisition loop
for a name with no `info.json` entry is never one already in
`existing_ids` (duplicates are rejected with an error message and the
prompt repeats) and never empty.  Keys supplied through `info.json`
bypass this check entirely and can silently collapse two names onto
one id (see the counterexample). -/
theorem C5_theorem (name : List Char) (infoUsers : List (List Char × InfoUser))
    (existingUsers : List (List Char × GroupUser)) (existingIds : List (List Char))
    (fuel : Nat) (inputs : List (List Char)) (uid : List Char) (rest : List (List Char))
    (hinfo : lookupInfo infoUsers name = none)
    (h : userIdLoop name infoUsers existingUsers existingIds fuel inputs =
      some (.fresh uid, rest)) :
    uid ∉ existingIds ∧ uid ≠ [] :=
  userIdLoop_fresh_not_existing hinfo fuel inputs uid rest h

/-- C5 (witness): with `"111"` taken, entering `"111"` then `"222"`
rejects the duplicate and accepts the fresh key. -/
theorem C5_witness : "222".data ∉ ["111".data] ∧ "222".data ≠ [] :=
  C5_theorem "Alice".data [] [] ["111".data] 3 ["111".data, "222".data] "222".data []
    (by decide) (by decide)

/-- C6 (counterexample): two WhatsApp message tables that differ only
in `formatted_content` produce identical search indexes (so formatted
content is not searchable), and likewise for the Matrix converter —
refuting that the index is built over the formatted content. -/
theorem C6_counterexample :
    (indexMessagesWA []
        [⟨0, "u".data, "Bob".data, "a".data, none, (2023, 1, 1, 9, 0), "default".data,
          some "hi _x_".data, some mdTag, some "hi <em>x</em>".data, none⟩] =
      indexMessagesWA []
        [⟨0, "u".data, "Bob".data, "a".data, none, (2023, 1, 1, 9, 0), "default".data,
          some "hi _x_".data, some mdTag, none, none⟩]) ∧
    (some "hi <em>x</em>".data ≠ (none : Option (List Char))) ∧
    (indexMessagesMx [] [⟨"e1".data, some "b".data, some "f".data, some "fb".data, none⟩] =
      indexMessagesMx [] [⟨"e1".data, some "b".data, none, none, none⟩]) := by
  exact ⟨by decide, by decide, by decide⟩

/-- C6 (amended): after ingestion the text search index is rebuilt
from scratch — its contents depend only on the current message table,
not on the previous index — over the columns `(id, content)` for the
WhatsApp archive and `(id, content, edits)` for the Matrix archive;
every message's id and content (and, for Matrix, edit history) appears
as a row, but `formatted_content` is not indexed by either. -/
theorem C6_theorem :
    (∀ (old old' : List (Nat × Option (List Char))) (msgs : List WAMessage),
      indexMessagesWA old msgs = indexMessagesWA old' msgs) ∧
    (∀ (old : List (Nat × Option (List Char))) (msgs : List WAMessage),
      ∀ m ∈ msgs, (m.id, m.content) ∈ indexMessagesWA old msgs) ∧
    (∀ (old old' : List (List Char × Option (List Char) × Option (List Char)))
        (msgs : List MatrixMessage),
      indexMessagesMx old msgs = indexMessagesMx old' msgs) ∧
    (∀ (old : List (List Char × Option (List Char) × Option (List Char)))
        (msgs : List MatrixMessage),
      ∀ m ∈ msgs, (m.id, m.content, m.edits) ∈ indexMessagesMx old msgs) := by
  refine ⟨fun _ _ _ => rfl, fun old msgs m hm => ?_, fun _ _ _ => rfl,
    fun old msgs m hm => ?_⟩
  · exact List.mem_map.mpr ⟨m, hm, rfl⟩
  · exact List.mem_map.mpr ⟨m, hm, rfl⟩

/-- C6 (witness): a concrete message's id and content appear in the
rebuilt WhatsApp index. -/
theorem C6_witness :
    ((0 : Nat), some "hi".data) ∈ indexMessagesWA []
      [⟨0, "u".data, "Bob".data, "a".data, none, (2023, 1, 1, 9, 0), "default".data,
        some "hi".data, none, none, none⟩] :=
  C6_theorem.2.1 []
    [⟨0, "u".data, "Bob".data, "a".data, none, (2023, 1, 1, 9, 0), "default".data,
      some "hi".data, none, none, none⟩] _ (List.mem_singleton.mpr rfl)

/-- C7 (counterexample): there is no escape handling — in `"\_a\_"`
both underscores are preceded by a backslash, yet the italic pass
opens and closes a span with them (a backslash is a non-word
character, so it satisfies the `\b` boundary), rendering
`"\<em>a\</em>"` in detection mode. -/
theorem C7_counterexample :
    parseMarkdown "\\_a\\_".data true = "\\<em>a\\</em>".data := by decide

/-- C7 (amended): backslash escaping is not supported: a delimiter
preceded by a backslash still opens or closes a span (for the bold and
strikethrough delimiters the backslash even provides the required
non-word context), while an unmatched delimiter is passed through as
literal text — any string with at most one occurrence of each
delimiter character renders, in detection mode, to itself. -/
theorem C7_theorem :
    (∀ s : List Char, s.count tickChar ≤ 1 → s.count '_' ≤ 1 → s.count '*' ≤ 1 →
      s.count '~' ≤ 1 → parseMarkdown s true = s) ∧
    parseMarkdown "\\*b\\*".data true = "\\<strong>b\\</strong>".data ∧
    parseMarkdown "\\~c\\~".data true = "\\<del>c\\</del>".data :=
  ⟨fun _ h1 h2 h3 h4 => parseMarkdown_detect_id h1 h2 h3 h4, by decide, by decide⟩

/-- C7 (witness): `"a_b *c"` has one unmatched underscore and one
unmatched asterisk; both are passed through as literal text. -/
theorem C7_witness : parseMarkdown "a_b *c".data true = "a_b *c".data :=
  C7_theorem.1 _ (by decide) (by decide) (by decide) (by decide)

/-- C8 (counterexample): the continuation line `"  world  "` is
stripped before being appended — the assembled content is
`"Hello\nworld"`, not `"Hello\n  world  "` as appending "a newline
plus that line" would give. -/
theorem C8_counterexample :
    backupMessages "chat1".data guFix []
      ["01/01/23, 09:00 - Alice: Hello".data, "  world  ".data] =
    .ok [⟨0, "111".data, "Alice".data, "alice.png".data, some "#ff0000".data,
          (2023, 1, 1, 9, 0), "default".data, some "Hello\nworld".data, none, none,
          none⟩] := by decide

/-- C8 (amended): when a Continuation line (neither header nor notice)
follows a pending message whose content is a non-empty string, the
assembler appends a newline plus the whitespace-stripped line to that
content and re-evaluates markup detection on the whole accumulated
content (`applyCont`); in particular the new content is exactly
`old ++ "\n" ++ line.strip()`. -/
theorem C8_theorem (chatId : List Char) (gu : List (List Char × GroupUser))
    (fs : List (List Char)) (line : List Char) (rest : List (List Char))
    (msgs : List WAMessage) (m : WAMessage) (n : Nat) (c : List Char)
    (hp : matchPattern line = none) (hs : matchSkipPattern line = false)
    (hc : m.content = some c) (hne : c ≠ []) :
    backupLoop chatId gu fs (line :: rest) false (msgs ++ [m]) n =
      backupLoop chatId gu fs rest false
        (msgs ++ [applyCont m (c ++ '\n' :: pyStrip line)]) n ∧
    (applyCont m (c ++ '\n' :: pyStrip line)).content = some (c ++ '\n' :: pyStrip line) :=
  ⟨backupLoop_cont_step chatId gu fs line rest msgs m n c hp hs hc hne,
   applyCont_content m _⟩

/-- C8 (witness): the pending `"Hello"` message followed by the
continuation line `"  world  "`. -/
theorem C8_witness :
    backupLoop "chat1".data guFix [] ["  world  ".data] false [pendingMsgFix] 1 =
      backupLoop "chat1".data guFix [] [] false
        [applyCont pendingMsgFix ("Hello".data ++ '\n' :: pyStrip "  world  ".data)] 1 ∧
    (applyCont pendingMsgFix ("Hello".data ++ '\n' :: pyStrip "  world  ".data)).content =
      some ("Hello".data ++ '\n' :: pyStrip "  world  ".data) :=
  C8_theorem "chat1".data guFix [] "  world  ".data [] [] pendingMsgFix 1 "Hello".data
    (by decide) (by decide) rfl (by decide)

/-- C9 (counterexample): in `c9Lines` the second line is a valid
MessageHeader, but it equals the first message's generic attachment
file name, so the lookahead consumes it: the run emits one message
although there are two header lines and no line was merged as a
two-line attachment caption (the emitted message's content is null). -/
theorem C9_counterexample :
    backupMessages "chat1".data guFix ["01/01/23, 09:01 - Al: x".data] c9Lines =
      .ok [⟨0, "919246462754".data, "Bob".data, "bob.png".data, none, (2023, 1, 1, 9, 0),
            "default".data, none, none, none,
            some ["chat1/23, 09:01 - Al: x".data]⟩] ∧
    headerLineCount c9Lines = 2 := by
  constructor <;> decide

/-- C9 (amended): on a successful run, the number of emitted messages
equals the number of MessageHeader lines minus the number of header
lines consumed by the one-line lookahead (`consumedHeaderCount`): a
line merged as a two-line caption is never a header — the image branch
checks this — but after a generic `(file attached)` body, a following
line equal to the attachment file name is consumed even when it is a
header. -/
theorem C9_theorem (chatId : List Char) (gu : List (List Char × GroupUser))
    (fs : List (List Char)) (lines : List (List Char)) (out : List WAMessage)
    (h : backupMessages chatId gu fs lines = .ok out) :
    out.length + consumedHeaderCount false lines = headerLineCount lines := by
  have hcount := backupLoop_count chatId gu fs lines false [] 0 out h
  simpa using hcount

/-- C9 (witness): a one-header transcript emits one message and
consumes no header line. -/
theorem C9_witness :
    ([(⟨0, "919246462754".data, "Bob".data, "bob.png".data, none, (2023, 1, 1, 9, 0),
        "default".data, some "hi".data, none, none, none⟩ : WAMessage)]).length +
      consumedHeaderCount false ["01/01/23, 09:00 - Bob: hi".data] =
    headerLineCount ["01/01/23, 09:00 - Bob: hi".data] :=
  C9_theorem "chat1".data guFix [] ["01/01/23, 09:00 - Bob: hi".data] _ (by decide)

/-- C10: every message record emitted by the assembler carries at most
one attachment reference: its attachments field is either null or a
singleton list (the source stores `json.dumps([attachment])` for a
single detected attachment and `None` otherwise; continuation lines
never touch it). -/
theorem C10_theorem (chatId : List Char) (gu : List (List Char × GroupUser))
    (fs : List (List Char)) (lines : List (List Char)) (out : List WAMessage)
    (h : backupMessages chatId gu fs lines = .ok out) :
    ∀ m ∈ out, m.attachments = none ∨ ∃ a, m.attachments = some [a] := by
  intro m hm
  exact backupLoop_attachments chatId gu fs lines false [] 0 out h
    (fun x hx => absurd hx (List.not_mem_nil x)) m hm

/-- C10 (witness): the attachment message of the two-line example
carries exactly one attachment reference. -/
theorem C10_witness :
    (⟨0, "919246462754".data, "Bob".data, "bob.png".data, none, (2023, 1, 1, 9, 0),
      "default".data, some "nice photo".data, none, none,
      some ["chat1/IMG-001.jpg".data]⟩ : WAMessage).attachments = none ∨
    ∃ a, (⟨0, "919246462754".data, "Bob".data, "bob.png".data, none, (2023, 1, 1, 9, 0),
      "default".data, some "nice photo".data, none, none,
      some ["chat1/IMG-001.jpg".data]⟩ : WAMessage).attachments = some [a] :=
  C10_theorem "chat1".data guFix fsFix
    ["01/01/23, 09:00 - Bob: IMG-001.jpg (file attached)".data, "nice photo".data]
    [⟨0, "919246462754".data, "Bob".data, "bob.png".data, none, (2023, 1, 1, 9, 0),
      "default".data, some "nice photo".data, none, none,
      some ["chat1/IMG-001.jpg".data]⟩]
    (by decide) _ (List.mem_singleton.mpr rfl)
